import Mathlib

/-!
Verification of the chess core of the CSCI5622-DeeperBlue/lc0 repository
(`src/chess/bitboard.h`, `src/chess/board.cc`) against its natural-language
specification.

The C++ code is shallowly embedded.  Machine integers (`uint64_t`, `uint8_t`,
`uint16_t`, `int`) are modelled as `Nat`/`Int` with explicit reductions
`% 2 ^ 64`, `% 256`, `% 65536` at every point where the C++ type would wrap.
C++ declares a shift `x << k` with `k ≥ 64` on `uint64_t` undefined; the
embedding gives it the mathematically wrapped value `(x * 2 ^ k) % 2 ^ 64`
(which is `0` for `k ≥ 64`).  This choice is recorded here once; every theorem
about positions whose behaviour depends on it says so in its doc comment.

Pieces of the repository that the claims need but that are not under `src/`
(`utils/bititer.h`, the `board.h` declarations of `KingAttackInfo`,
`CastlingRights`, square constants) are modelled from the specification; each
such definition carries a doc comment starting with `Modelled from the spec:`.
-/

namespace LcZero

/-- C++ `uint64_t` left shift, total semantics: mathematical shift wrapped to
64 bits (for shift counts below 64 this is exactly the C++ value). -/
def u64shl (x k : Nat) : Nat := (x <<< k) % 2 ^ 64

/-- C++ `uint64_t` bitwise complement `~x` (for `x < 2 ^ 64`). -/
def u64not (x : Nat) : Nat := x ^^^ (2 ^ 64 - 1)

/-- `BitBoard` (bitboard.h lines 108-337): three 64-bit words, one per layer of
the 3-layer board attempt.  `board_lower_` holds squares 0-63. -/
structure BitBoard where
  board_lower_ : Nat := 0
  board_middle_ : Nat := 0
  board_upper_ : Nat := 0
  deriving DecidableEq, Repr

/-- `BitBoard(uint64_t lower, uint64_t middle, uint64_t upper)` (declared at
bitboard.h line 117; the out-of-line body is not under `src/`).
Modelled from the spec: the three-argument constructor fills the three words. -/
def BitBoard.mk3 (lower middle upper : Nat) : BitBoard :=
  { board_lower_ := lower, board_middle_ := middle, board_upper_ := upper }

/-- `BitBoard::set(std::uint8_t pos)` (bitboard.h lines 188-196). -/
def BitBoard.set (b : BitBoard) (pos : Nat) : BitBoard :=
  if pos < 64 then
    { b with board_lower_ := b.board_lower_ ||| u64shl 1 pos }
  else if pos < 128 then
    { b with board_middle_ := b.board_middle_ ||| u64shl 1 pos }
  else
    { b with board_upper_ := b.board_upper_ ||| u64shl 1 pos }

/-- `BitBoard::reset(std::uint8_t pos)` (bitboard.h lines 201-209). -/
def BitBoard.reset (b : BitBoard) (pos : Nat) : BitBoard :=
  if pos < 64 then
    { b with board_lower_ := b.board_lower_ &&& u64not (u64shl 1 pos) }
  else if pos < 128 then
    { b with board_middle_ := b.board_middle_ &&& u64not (u64shl 1 pos) }
  else
    { b with board_upper_ := b.board_upper_ &&& u64not (u64shl 1 pos) }

/-- `BitBoard::get(std::uint8_t pos)` (bitboard.h lines 216-224). -/
def BitBoard.get (b : BitBoard) (pos : Nat) : Bool :=
  if pos < 64 then b.board_lower_ &&& u64shl 1 pos != 0
  else if pos < 128 then b.board_middle_ &&& u64shl 1 pos != 0
  else b.board_upper_ &&& u64shl 1 pos != 0

/-- `BitBoard::set_if(std::uint8_t pos, bool cond)` (bitboard.h line 181). -/
def BitBoard.set_if (b : BitBoard) (pos : Nat) (cond : Bool) : BitBoard :=
  if cond then b.set pos else b

/-- `BitBoard::empty()` (bitboard.h lines 237-241). -/
def BitBoard.emptyb (b : BitBoard) : Bool :=
  b.board_lower_ == 0 && b.board_middle_ == 0 && b.board_upper_ == 0

/-- `BitBoard::intersects` (bitboard.h lines 244-248). -/
def BitBoard.intersects (a b : BitBoard) : Bool :=
  a.board_lower_ &&& b.board_lower_ != 0 ||
  a.board_middle_ &&& b.board_middle_ != 0 ||
  a.board_upper_ &&& b.board_upper_ != 0

/-- `BitBoard::as_int()` (bitboard.h line 120): the broken 3d placeholder
`board_lower_ + 64 * board_middle_ + 128 * board_upper_`, wrapped to 64 bits. -/
def BitBoard.as_int (b : BitBoard) : Nat :=
  (b.board_lower_ + 64 * b.board_middle_ + 128 * b.board_upper_) % 2 ^ 64

/-- `operator|` on bitboards (bitboard.h lines 303-307). -/
def BitBoard.orb (a b : BitBoard) : BitBoard :=
  ⟨a.board_lower_ ||| b.board_lower_, a.board_middle_ ||| b.board_middle_,
   a.board_upper_ ||| b.board_upper_⟩

/-- `operator&` on bitboards (bitboard.h lines 310-315). -/
def BitBoard.andb (a b : BitBoard) : BitBoard :=
  ⟨a.board_lower_ &&& b.board_lower_, a.board_middle_ &&& b.board_middle_,
   a.board_upper_ &&& b.board_upper_⟩

/-- `operator-(BitBoard, BitBoard)` (bitboard.h lines 325-329). -/
def BitBoard.subb (a b : BitBoard) : BitBoard :=
  ⟨a.board_lower_ &&& u64not b.board_lower_,
   a.board_middle_ &&& u64not b.board_middle_,
   a.board_upper_ &&& u64not b.board_upper_⟩

/-- `BoardSquare::as_board()` (bitboard.h line 59): `1ULL << square_`. -/
def bsAsBoard (square : Nat) : Nat := u64shl 1 square

/-- `operator-(BitBoard, BoardSquare)` (bitboard.h lines 318-322): the same
`as_board` mask is removed from all three words. -/
def BitBoard.subsq (a : BitBoard) (square : Nat) : BitBoard :=
  ⟨a.board_lower_ &&& u64not (bsAsBoard square),
   a.board_middle_ &&& u64not (bsAsBoard square),
   a.board_upper_ &&& u64not (bsAsBoard square)⟩

/-- `BoardSquare(int row, int col, int layer)` (bitboard.h line 50):
`64*layer + row*8 + col` converted to `uint8_t` (conversion of a C++ int to an
unsigned type is reduction mod 256). -/
def bsq3 (row col layer : Int) : Nat := ((64 * layer + row * 8 + col) % 256).toNat

/-- `BoardSquare(int row, int col)` (bitboard.h line 53): middle layer,
`64 + row*8 + col` as `uint8_t`. -/
def bsq2 (row col : Int) : Nat := ((64 + row * 8 + col) % 256).toNat

/-- `BoardSquare::row()` (bitboard.h line 67): `square_ / 8`. -/
def bsRow (square : Nat) : Nat := square / 8

/-- `BoardSquare::col()` (bitboard.h line 69): `square_ % 8`. -/
def bsCol (square : Nat) : Nat := square % 8

/-- `BoardSquare::layer()` (bitboard.h line 71): the source computes
`square_ % 64` (not `/ 64`). -/
def bsLayer (square : Nat) : Nat := square % 64

/-- `BoardSquare::Mirror()` (bitboard.h line 74): `square_ ^ 0b111000`. -/
def bsMirror (square : Nat) : Nat := square ^^^ 56

/-- `BoardSquare::IsValid(int row, int col)` (bitboard.h lines 80-82). -/
def bsIsValid (row col : Int) : Bool :=
  row ≥ 0 && col ≥ 0 && row < 8 && col < 8

/-- `Move::Promotion` (bitboard.h line 344). -/
inductive Promotion where
  | None | Queen | Rook | Bishop | Knight
  deriving DecidableEq, Repr, Fintype

/-- Numeric value of a `Move::Promotion` as stored in the move word. -/
def Promotion.val : Promotion → Nat
  | .None => 0
  | .Queen => 1
  | .Rook => 2
  | .Bishop => 3
  | .Knight => 4

/-- Conversion of a 3-bit field back to `Move::Promotion` (the C++ cast
`Promotion(x)`; values 5-7 never arise from the packing of values 0-4). -/
def promoOfNat : Nat → Promotion
  | 1 => .Queen
  | 2 => .Rook
  | 3 => .Bishop
  | 4 => .Knight
  | _ => .None

/-- `Move` (bitboard.h lines 342-409): a `uint16_t` with bits 0-5 the
to-square, bits 6-11 the from-square, bits 12-14 the promotion. -/
structure Move where
  data_ : Nat := 0
  deriving DecidableEq, Repr

/-- `Move(BoardSquare from, BoardSquare to)` (bitboard.h lines 346-347):
`to + (from << 6)` as `uint16_t`. -/
def mkMove2 (fromSq toSq : Nat) : Move :=
  ⟨(toSq + (fromSq <<< 6)) % 2 ^ 16⟩

/-- `Move(BoardSquare from, BoardSquare to, Promotion promotion)`
(bitboard.h lines 348-350). -/
def mkMove3 (fromSq toSq : Nat) (promotion : Promotion) : Move :=
  ⟨(toSq + (fromSq <<< 6) + (promotion.val <<< 12)) % 2 ^ 16⟩

/-- `Move::to()` (bitboard.h line 354): `data_ & 0b0000000000111111`. -/
def Move.to (m : Move) : Nat := m.data_ &&& 0x003F

/-- `Move::from()` (bitboard.h line 355): `(data_ & 0b0000111111000000) >> 6`. -/
def Move.fromSq (m : Move) : Nat := (m.data_ &&& 0x0FC0) >>> 6

/-- `Move::promotion()` (bitboard.h line 356):
`Promotion((data_ & 0b0111000000000000) >> 12)`. -/
def Move.promotion (m : Move) : Promotion := promoOfNat ((m.data_ &&& 0x7000) >>> 12)

/-- Modelled from the spec: `ReverseBytesInBytes` lives in `utils/bititer.h`,
which is not under `src/`.  The spec describes it as the byte-reversal used for
board mirroring (§2 "byte-reversal/bit-transpose operations used for board
mirroring"): the eight bytes of the 64-bit word are emitted in reverse order. -/
def ReverseBytesInBytes (v : Nat) : Nat :=
  ((v >>> 0) &&& 0xFF) <<< 56 ||| ((v >>> 8) &&& 0xFF) <<< 48 |||
  ((v >>> 16) &&& 0xFF) <<< 40 ||| ((v >>> 24) &&& 0xFF) <<< 32 |||
  ((v >>> 32) &&& 0xFF) <<< 24 ||| ((v >>> 40) &&& 0xFF) <<< 16 |||
  ((v >>> 48) &&& 0xFF) <<< 8 ||| ((v >>> 56) &&& 0xFF) <<< 0

/-- `BitBoard::Mirror()` (bitboard.h lines 251-255): byte-reverses each of the
three words. -/
def BitBoard.Mirror (b : BitBoard) : BitBoard :=
  ⟨ReverseBytesInBytes b.board_lower_, ReverseBytesInBytes b.board_middle_,
   ReverseBytesInBytes b.board_upper_⟩

theorem u64shl_one {pos : Nat} (h : pos < 64) : u64shl 1 pos = 2 ^ pos := by
  rw [u64shl, Nat.shiftLeft_eq, one_mul]
  exact Nat.mod_eq_of_lt (Nat.pow_lt_pow_right (by norm_num) h)

theorem and_two_pow_ne (n i : Nat) : (n &&& 2 ^ i != 0) = n.testBit i := by
  rw [Nat.and_two_pow]
  cases h : n.testBit i <;> simp

theorem BitBoard.get_low (b : BitBoard) {pos : Nat} (h : pos < 64) :
    b.get pos = b.board_lower_.testBit pos := by
  rw [BitBoard.get, if_pos h, u64shl_one h, and_two_pow_ne]

theorem BitBoard.set_low (b : BitBoard) {pos : Nat} (h : pos < 64) :
    (b.set pos).board_lower_ = b.board_lower_ ||| 2 ^ pos := by
  rw [BitBoard.set, if_pos h, u64shl_one h]

theorem BitBoard.reset_low (b : BitBoard) {pos : Nat} (h : pos < 64) :
    (b.reset pos).board_lower_ = b.board_lower_ &&& u64not (2 ^ pos) := by
  rw [BitBoard.reset, if_pos h, u64shl_one h]

theorem testBit_u64not {pos j : Nat} (hj : j < 64) :
    (u64not (2 ^ pos)).testBit j = !(decide (pos = j)) := by
  have h64 : (2 ^ 64 - 1 : Nat).testBit j = decide (j < 64) :=
    Nat.testBit_two_pow_sub_one 64 j
  rw [u64not, Nat.testBit_xor, Nat.testBit_two_pow, h64, decide_eq_true hj]
  cases h : decide (pos = j) <;> rfl

/-- C8: for every bitboard state and square indices `s, t < 64`: after
`set s`, `get s` is true; after `reset s`, `get s` is false; and `set s` /
`reset s` leave `get t` unchanged for `t ≠ s`. -/
theorem C8_bitboard_set_reset_get (b : BitBoard) (s t : Nat)
    (hs : s < 64) (ht : t < 64) :
    (b.set s).get s = true ∧ (b.reset s).get s = false ∧
    (t ≠ s → (b.set s).get t = b.get t ∧ (b.reset s).get t = b.get t) := by
  refine ⟨?_, ?_, fun hne => ⟨?_, ?_⟩⟩
  · rw [BitBoard.get_low _ hs, BitBoard.set_low b hs, Nat.testBit_or,
      Nat.testBit_two_pow]
    simp
  · rw [BitBoard.get_low _ hs, BitBoard.reset_low b hs, Nat.testBit_and,
      testBit_u64not hs]
    simp
  · rw [BitBoard.get_low _ ht, BitBoard.set_low b hs, Nat.testBit_or,
      Nat.testBit_two_pow, BitBoard.get_low _ ht]
    simp [Ne.symm hne]
  · rw [BitBoard.get_low _ ht, BitBoard.reset_low b hs, Nat.testBit_and,
      testBit_u64not ht, BitBoard.get_low _ ht]
    simp [Ne.symm hne]

/-- Witness for C8 at a concrete bitboard and squares 3 and 10. -/
theorem C8_bitboard_set_reset_get_witness :
    ((BitBoard.mk3 5 0 0).set 3).get 3 = true ∧
    ((BitBoard.mk3 5 0 0).reset 3).get 3 = false ∧
    ((10 : Nat) ≠ 3 → ((BitBoard.mk3 5 0 0).set 3).get 10 = (BitBoard.mk3 5 0 0).get 10 ∧
      ((BitBoard.mk3 5 0 0).reset 3).get 10 = (BitBoard.mk3 5 0 0).get 10) :=
  C8_bitboard_set_reset_get (BitBoard.mk3 5 0 0) 3 10 (by decide) (by decide)

theorem pack_fields : ∀ f < 64, ∀ t < 64, ∀ pv < 5,
    ((t + (f <<< 6) + (pv <<< 12)) % 2 ^ 16 &&& 0x003F) = t ∧
    ((((t + (f <<< 6) + (pv <<< 12)) % 2 ^ 16) &&& 0x0FC0) >>> 6) = f ∧
    ((((t + (f <<< 6) + (pv <<< 12)) % 2 ^ 16) &&& 0x7000) >>> 12) = pv := by
  decide

theorem Promotion.val_lt (p : Promotion) : p.val < 5 := by cases p <;> decide

theorem promoOfNat_val (p : Promotion) : promoOfNat p.val = p := by
  cases p <;> rfl

theorem mkMove3_fields : ∀ f < 64, ∀ t < 64, ∀ p : Promotion,
    (mkMove3 f t p).fromSq = f ∧ (mkMove3 f t p).to = t ∧
    (mkMove3 f t p).promotion = p := by
  intro f hf t ht p
  obtain ⟨h1, h2, h3⟩ := pack_fields f hf t ht p.val p.val_lt
  exact ⟨h2, h1, by rw [Move.promotion, mkMove3, h3, promoOfNat_val]⟩

/-- C9: a move packed from `from`, `to` (square indices below 64) and a
promotion kind satisfies `from() = from`, `to() = to`, `promotion() =
promotion`, and two such moves compare equal exactly when all three fields
are equal. -/
theorem C9_move_packing (f t : Nat) (p : Promotion) (hf : f < 64) (ht : t < 64) :
    ((mkMove3 f t p).fromSq = f ∧ (mkMove3 f t p).to = t ∧
      (mkMove3 f t p).promotion = p) ∧
    (∀ g u : Nat, ∀ q : Promotion, g < 64 → u < 64 →
      (mkMove3 f t p = mkMove3 g u q ↔ (f = g ∧ t = u ∧ p = q))) := by
  obtain ⟨h1, h2, h3⟩ := mkMove3_fields f hf t ht p
  refine ⟨⟨h1, h2, h3⟩, fun g u q hg hu => ?_⟩
  obtain ⟨g1, g2, g3⟩ := mkMove3_fields g hg u hu q
  constructor
  · intro he
    exact ⟨by rw [← h1, he, g1], by rw [← h2, he, g2], by rw [← h3, he, g3]⟩
  · rintro ⟨rfl, rfl, rfl⟩
    rfl

/-- Witness for C9 at from = 3, to = 5, promotion = Rook. -/
theorem C9_move_packing_witness :
    (((mkMove3 3 5 .Rook).fromSq = 3 ∧ (mkMove3 3 5 .Rook).to = 5 ∧
      (mkMove3 3 5 .Rook).promotion = .Rook) ∧
    (∀ g u : Nat, ∀ q : Promotion, g < 64 → u < 64 →
      (mkMove3 3 5 .Rook = mkMove3 g u q ↔ ((3 : Nat) = g ∧ (5 : Nat) = u ∧ Promotion.Rook = q)))) :=
  C9_move_packing 3 5 .Rook (by decide) (by decide)

theorem shifted_byte_testBit (v k i s : Nat) :
    (((v >>> k) &&& 0xFF) <<< i).testBit s =
      (decide (i ≤ s) && (decide (s - i < 8) && v.testBit (k + (s - i)))) := by
  have h255 : (0xFF : Nat) = 2 ^ 8 - 1 := rfl
  rw [Nat.testBit_shiftLeft, h255, Nat.testBit_and, Nat.testBit_two_pow_sub_one,
    Nat.testBit_shiftRight, Bool.and_comm (v.testBit (k + (s - i)))]

theorem reverseBytes_testBit (v : Nat) {s : Nat} (h : s < 64) :
    (ReverseBytesInBytes v).testBit s = v.testBit (s ^^^ 56) := by
  unfold ReverseBytesInBytes
  interval_cases s <;> simp only [Nat.testBit_or, shifted_byte_testBit] <;> simp

/-- C10: mirroring a bitboard moves the bit at square `s < 64` to the
row-mirrored square `s ^^^ 56` (the same mapping as `BoardSquare::Mirror`),
and mirroring twice restores every bit with index below 64. -/
theorem C10_bitboard_mirror (b : BitBoard) (s : Nat) (h : s < 64) :
    b.Mirror.get (bsMirror s) = b.get s ∧ b.Mirror.Mirror.get s = b.get s := by
  have hm : s ^^^ 56 < 64 := Nat.xor_lt_two_pow (n := 6) h (by norm_num)
  have hcancel : s ^^^ 56 ^^^ 56 = s := Nat.xor_cancel_right 56 s
  constructor
  · rw [bsMirror, BitBoard.get_low _ hm, BitBoard.get_low _ h]
    show (ReverseBytesInBytes b.board_lower_).testBit (s ^^^ 56) = _
    rw [reverseBytes_testBit _ hm, hcancel]
  · rw [BitBoard.get_low _ h, BitBoard.get_low _ h]
    show (ReverseBytesInBytes (ReverseBytesInBytes b.board_lower_)).testBit s = _
    rw [reverseBytes_testBit _ h, reverseBytes_testBit _ hm, hcancel]

/-- Witness for C10 at a concrete bitboard and square 9. -/
theorem C10_bitboard_mirror_witness :
    (BitBoard.mk3 0x513 2 3).Mirror.get (bsMirror 9) = (BitBoard.mk3 0x513 2 3).get 9 ∧
    (BitBoard.mk3 0x513 2 3).Mirror.Mirror.get 9 = (BitBoard.mk3 0x513 2 3).get 9 :=
  C10_bitboard_mirror (BitBoard.mk3 0x513 2 3) 9 (by decide)

/-- `kPawnMask` (board.cc line 55). -/
def kPawnMask : BitBoard :=
  BitBoard.mk3 0x00FFFFFFFFFFFF00 0x00FFFFFFFFFFFF00 0x00FFFFFFFFFFFF00

/-- `kEnPassantLayer` (board.cc line 57). -/
def kEnPassantLayer : Int := 1

/-- `kCastleLayer` (board.cc line 58). -/
def kCastleLayer : Int := 1

/-- `kKingMoves` (board.cc lines 82-91): sixteen (row, col, layer) deltas. -/
def kKingMoves : List (Int × Int × Int) :=
  [(-1,-1,1),(-1,-1,-1),(-1,0,1),(-1,0,-1),(-1,1,1),(-1,1,-1),
   (0,-1,1),(0,-1,-1),(0,1,1),(0,1,-1),
   (1,-1,1),(1,-1,-1),(1,0,1),(1,0,-1),(1,1,1),(1,1,-1)]

/-- `kRookDirections` (board.cc lines 94-98). -/
def kRookDirections : List (Int × Int × Int) :=
  [(1,0,0),(-1,0,0),(0,1,0),(0,-1,0),(0,0,1),(0,0,-1)]

/-- `kBishopDirections` (board.cc lines 101-106). -/
def kBishopDirections : List (Int × Int × Int) :=
  [(1,1,0),(-1,1,0),(1,-1,0),(-1,-1,0),(1,-1,1),(-1,-1,1),(1,-1,-1),(-1,-1,-1)]

/-- First (and only) element of `kRookAttacks` (board.cc lines 118-142): the
array has a single initializer, the remaining 63 values are commented out. -/
def kRookAttacks0 : BitBoard := BitBoard.mk3 0 0x01010101010101FE 0

/-- First (and only) element of `kBishopAttacks` (board.cc lines 144-168). -/
def kBishopAttacks0 : BitBoard := BitBoard.mk3 0 0x8040201008040200 0

/-- First (and only) element of `kKnightAttacks` (board.cc lines 170-194). -/
def kKnightAttacks0 : BitBoard := BitBoard.mk3 0 0x0000000000020400 0

/-- First (and only) element of `kPawnAttacks` (board.cc lines 196-220). -/
def kPawnAttacks0 : BitBoard := BitBoard.mk3 0 0x0000000000000200 0

/-- `kPromotions` (board.cc lines 222-227). -/
def kPromotions : List Promotion :=
  [Promotion.Queen, Promotion.Rook, Promotion.Bishop, Promotion.Knight]

/-- Reads of `kRookAttacks[i]`, `kPawnAttacks[i]` etc. with `i ≥ 1`, and of
`rook_magic_params[sq]` / `bishop_magic_params[sq]` with `sq ≥ 64`, are
out-of-bounds array accesses in the C++ (the attack arrays have one element,
the parameter arrays 64).  Such a read returns whatever bytes follow the array
in memory; the embedding keeps them abstract as an environment of
uninterpreted functions, so anything proved for every environment holds for
every possible memory layout. -/
structure OobEnv where
  rookAttacksArr : Nat → BitBoard
  bishopAttacksArr : Nat → BitBoard
  knightAttacksArr : Nat → BitBoard
  pawnAttacksArr : Nat → BitBoard
  rookMagic : Nat → BitBoard → BitBoard
  bishopMagic : Nat → BitBoard → BitBoard

/-- One concrete environment: every out-of-bounds read yields zero bytes. -/
def env0 : OobEnv :=
  ⟨fun _ => ⟨0, 0, 0⟩, fun _ => ⟨0, 0, 0⟩, fun _ => ⟨0, 0, 0⟩, fun _ => ⟨0, 0, 0⟩,
   fun _ _ => ⟨0, 0, 0⟩, fun _ _ => ⟨0, 0, 0⟩⟩

/-- `kRookAttacks[i]` under environment `env` (in bounds only for `i = 0`). -/
def kRookAttacksAt (env : OobEnv) (i : Nat) : BitBoard :=
  if i = 0 then kRookAttacks0 else env.rookAttacksArr i

/-- `kBishopAttacks[i]` under environment `env`. -/
def kBishopAttacksAt (env : OobEnv) (i : Nat) : BitBoard :=
  if i = 0 then kBishopAttacks0 else env.bishopAttacksArr i

/-- `kKnightAttacks[i]` under environment `env`. -/
def kKnightAttacksAt (env : OobEnv) (i : Nat) : BitBoard :=
  if i = 0 then kKnightAttacks0 else env.knightAttacksArr i

/-- `kPawnAttacks[i]` under environment `env`. -/
def kPawnAttacksAt (env : OobEnv) (i : Nat) : BitBoard :=
  if i = 0 then kPawnAttacks0 else env.pawnAttacksArr i

/-- Modelled from the spec: `BitIterator` lives in `utils/bititer.h`, not under
`src/`.  The spec's BitSet64 iteration enumerates the set squares; `begin()`
(bitboard.h line 270) seeds it with `board_lower_`, so iteration yields the
set bits of the lower word in increasing order. -/
def BitBoard.squares (b : BitBoard) : List Nat :=
  (List.range 64).filter (fun i => b.board_lower_.testBit i)

/-- Inner mask walk of `BuildAttacksTable` (board.cc lines 331-345): step in
direction (dr, dc); stop (without adding) as soon as the square after the next
one is off the board; squares are built with the two-argument
`BoardSquare(row, col)` constructor. -/
def maskWalk : Nat → BitBoard → Int → Int → Int → Int → BitBoard
  | 0, m, _, _, _, _ => m
  | fuel + 1, m, r, c, dr, dc =>
    let rr := r + dr
    let cc := c + dc
    if bsIsValid (rr + dr) (cc + dc) then
      maskWalk fuel (m.set (bsq2 rr cc)) rr cc dr dc
    else m

/-- Relevant-occupancy mask of `BuildAttacksTable` (board.cc lines 329-349):
the loop uses only the first four directions (`j < 4`). -/
def relevantMask (dirs : List (Int × Int × Int)) (sq : Nat) : BitBoard :=
  (dirs.take 4).foldl
    (fun m d => maskWalk 8 m (bsRow sq : Int) (bsCol sq : Int) d.1 d.2.1)
    ⟨0, 0, 0⟩

/-- `magic_params[square].mask_` (board.cc line 349): `mask.as_int()`. -/
def magicMaskOf (dirs : List (Int × Int × Int)) (sq : Nat) : Nat :=
  (relevantMask dirs sq).as_int

/-- Inner attack walk of `BuildAttacksTable` (board.cc lines 384-396): step,
stop when off the board, add the square, stop after an occupied square. -/
def attWalk : Nat → BitBoard → BitBoard → Int → Int → Int → Int → BitBoard
  | 0, a, _, _, _, _, _ => a
  | fuel + 1, a, occ, r, c, dr, dc =>
    let rr := r + dr
    let cc := c + dc
    if bsIsValid rr cc then
      let dest := bsq2 rr cc
      let aa := a.set dest
      if occ.get dest then aa else attWalk fuel aa occ rr cc dr dc
    else a

/-- Attack bitboard for one occupancy in `BuildAttacksTable` (board.cc lines
382-396), again over the first four directions only. -/
def attacksFor (dirs : List (Int × Int × Int)) (sq : Nat) (occ : BitBoard) : BitBoard :=
  (dirs.take 4).foldl
    (fun a d => attWalk 8 a occ (bsRow sq : Int) (bsCol sq : Int) d.1 d.2.1)
    ⟨0, 0, 0⟩

/-- `_pext_u64`: gather the bits of `x` selected by `mask` into the low bits of
the result (the `#else` branch of board.cc lines 412-415; `NO_PEXT` is not
defined in the build, `immintrin.h` is included at line 40). -/
def pext (x mask : Nat) : Nat :=
  ((List.range 64).foldl
    (fun acc i =>
      if mask.testBit i then
        ((if x.testBit i then acc.1 ||| (1 <<< acc.2) else acc.1), acc.2 + 1)
      else acc)
    ((0 : Nat), (0 : Nat))).1

/-- One square's region of the attacks table as `BuildAttacksTable` fills it
(board.cc lines 352-419): the cached occupancy squares come from iterating
`BitBoard(0, mask_, 0)`, the region is cleared and then written at the
pext-derived index for each occupancy subset. -/
def buildRegion (dirs : List (Int × Int × Int)) (sq : Nat) : List BitBoard :=
  let mask := magicMaskOf dirs sq
  let occSquares := (BitBoard.mk3 0 mask 0).squares
  let n := 1 <<< occSquares.length
  (List.range n).foldl
    (fun region i =>
      let occ := occSquares.enum.foldl
        (fun (o : BitBoard) bi => o.set_if bi.2 ((1 <<< bi.1) &&& i != 0))
        ⟨0, 0, 0⟩
      let attacks := attacksFor dirs sq occ
      let index := pext occ.as_int mask
      region.set index attacks)
    (List.replicate n ⟨0, 0, 0⟩)

/-- The whole attacks table after `InitializeMagicBitboards()` (board.cc lines
467-482): the 64 per-square regions laid out consecutively from offset 0. -/
def flatTable (dirs : List (Int × Int × Int)) : List BitBoard :=
  ((List.range 64).map (buildRegion dirs)).flatten

/-- `table_offset` of a square: the summed region sizes of smaller squares. -/
def regionOffset (dirs : List (Int × Int × Int)) (sq : Nat) : Nat :=
  (((List.range sq).map (buildRegion dirs)).flatten).length

/-- `GetRookAttacks` (board.cc lines 428-443) in the post-initialization state:
pext-index into the square's region of the table.  The global arrays are
zero-initialized static storage, so a read beyond the built prefix is the zero
bitboard (`getD` default); a read of `rook_magic_params[square]` with
`square ≥ 64` is out of bounds and comes from the environment. -/
def GetRookAttacks (env : OobEnv) (square : Nat) (pieces : BitBoard) : BitBoard :=
  if square < 64 then
    let index := pext pieces.as_int (magicMaskOf kRookDirections square)
    (flatTable kRookDirections).getD (regionOffset kRookDirections square + index) ⟨0, 0, 0⟩
  else env.rookMagic square pieces

/-- `GetBishopAttacks` (board.cc lines 447-463), same shape. -/
def GetBishopAttacks (env : OobEnv) (square : Nat) (pieces : BitBoard) : BitBoard :=
  if square < 64 then
    let index := pext pieces.as_int (magicMaskOf kBishopDirections square)
    (flatTable kBishopDirections).getD (regionOffset kBishopDirections square + index) ⟨0, 0, 0⟩
  else env.bishopMagic square pieces

/-- Reference walk of claim C1: from square `sq` (row `sq / 8`, column
`sq % 8` of the single 8x8 board), walk direction (dr, dc), adding square
`8 * row + col` to the 64-bit set until a board edge is passed or an occupied
square of `occ` is reached, that square included. -/
def refWalk : Nat → Nat → Nat → Int → Int → Int → Int → Nat
  | 0, acc, _, _, _, _, _ => acc
  | fuel + 1, acc, occ, r, c, dr, dc =>
    let rr := r + dr
    let cc := c + dc
    if 0 ≤ rr ∧ rr < 8 ∧ 0 ≤ cc ∧ cc < 8 then
      let bit := (rr * 8 + cc).toNat
      let acc2 := acc ||| (1 <<< bit)
      if occ.testBit bit then acc2 else refWalk fuel acc2 occ rr cc dr dc
    else acc

/-- Reference sliding-attack set of claim C1 over a list of 2d directions. -/
def refSlidingAttacks (dirs : List (Int × Int)) (sq occ : Nat) : Nat :=
  dirs.foldl (fun a d => refWalk 8 a occ ((sq / 8 : Nat) : Int) ((sq % 8 : Nat) : Int) d.1 d.2) 0

/-- Reference rook attacks (four orthogonal directions) of claim C1. -/
def refRookAttacks (sq occ : Nat) : Nat :=
  refSlidingAttacks [(1, 0), (-1, 0), (0, 1), (0, -1)] sq occ

/-- Reference bishop attacks (four diagonal directions) of claim C1. -/
def refBishopAttacks (sq occ : Nat) : Nat :=
  refSlidingAttacks [(1, 1), (-1, 1), (1, -1), (-1, -1)] sq occ

/-- C1 fails on the code: after initialization, `GetRookAttacks` (and
`GetBishopAttacks`) return the empty bitboard even at square a1 with empty
occupancy, where the reference walk gives the full first rank and file
(0x01010101010101FE) resp. the long diagonal (0x8040201008040200).  The
relevant-occupancy masks are computed on middle-layer square encodings
`64 + s` whose `set` wraps to nothing, so every stored mask is zero and every
table entry is the empty attack set. -/
theorem C1_magic_attack_tables_broken :
    GetRookAttacks env0 0 ⟨0, 0, 0⟩ = ⟨0, 0, 0⟩ ∧
    GetBishopAttacks env0 0 ⟨0, 0, 0⟩ = ⟨0, 0, 0⟩ ∧
    refRookAttacks 0 0 = 0x01010101010101FE ∧
    refBishopAttacks 0 0 = 0x8040201008040200 ∧
    (GetRookAttacks env0 0 ⟨0, 0, 0⟩).get 1 = false ∧
    (refRookAttacks 0 0).testBit 1 = true := by
  decide

/-- Modelled from the spec: the rank/file/square constants declared in the
missing board.h.  The spec's stable subset is a single 8x8 board with the
standard castling geometry (§4.2), giving 0-based ranks and files and
first-rank square indices `A1M = 0` through `H1M = 7`. -/
def RANK_1 : Nat := 0

def RANK_3 : Nat := 2

def RANK_4 : Nat := 3

def RANK_5 : Nat := 4

def RANK_6 : Nat := 5

def RANK_8 : Nat := 7

def FILE_A : Nat := 0

def FILE_C : Nat := 2

def FILE_E : Nat := 4

def FILE_G : Nat := 6

def FILE_H : Nat := 7

def A1M : Nat := 0

def C1M : Nat := 2

def D1M : Nat := 3

def E1M : Nat := 4

def F1M : Nat := 5

def G1M : Nat := 6

def H1M : Nat := 7

/-- Modelled from the spec: `CastlingRights` is declared in the missing
board.h.  Per §3 it is four booleans (we/they x kingside/queenside) plus two
rook files shared between the colors. -/
structure Castlings where
  we_can_00_ : Bool := false
  we_can_000_ : Bool := false
  they_can_00_ : Bool := false
  they_can_000_ : Bool := false
  queenside_rook_ : Nat := FILE_A
  kingside_rook_ : Nat := FILE_H
  deriving DecidableEq, Repr

/-- Modelled from the spec: `SetRookPositions(left, right)` stores the
queenside (left) and kingside (right) rook files. -/
def Castlings.SetRookPositions (c : Castlings) (left right : Nat) : Castlings :=
  { c with queenside_rook_ := left, kingside_rook_ := right }

/-- Modelled from the spec: `CastlingRights::Mirror` swaps the two sides'
flags (the rook files are shared between colors, §3). -/
def Castlings.Mirror (c : Castlings) : Castlings :=
  { c with we_can_00_ := c.they_can_00_, we_can_000_ := c.they_can_000_,
           they_can_00_ := c.we_can_00_, they_can_000_ := c.we_can_000_ }

/-- `ChessBoard` state (the field list is visible from board.cc: six piece
bitboards, the two king squares, the castling rights and the flipped flag). -/
structure ChessBoard where
  our_pieces_ : BitBoard := {}
  their_pieces_ : BitBoard := {}
  rooks_ : BitBoard := {}
  bishops_ : BitBoard := {}
  pawns_ : BitBoard := {}
  our_king_ : Nat := 0
  their_king_ : Nat := 0
  castlings_ : Castlings := {}
  flipped_ : Bool := false
  deriving DecidableEq, Repr

/-- Modelled from the spec: the `rooks()` accessor from the missing board.h.
Per §3 a queen is a square in both the rook and the bishop set, so the
pure-rook set is the rook set minus the bishop set (used by `ApplyMove` and
the castling part of `SetFromFen` to find actual rooks). -/
def ChessBoard.rooks (b : ChessBoard) : BitBoard := b.rooks_.subb b.bishops_

/-- `ChessBoard::Mirror()` (board.cc lines 65-77). -/
def ChessBoard.Mirror (b : ChessBoard) : ChessBoard :=
  { b with
    our_pieces_ := b.their_pieces_.Mirror
    their_pieces_ := b.our_pieces_.Mirror
    rooks_ := b.rooks_.Mirror
    bishops_ := b.bishops_.Mirror
    pawns_ := b.pawns_.Mirror
    our_king_ := bsMirror b.their_king_
    their_king_ := bsMirror b.our_king_
    castlings_ := b.castlings_.Mirror
    flipped_ := !b.flipped_ }

/-- Modelled from the spec: `KingAttackInfo` is declared in the missing
board.h; §4.3 gives its contents: the attack-resolution squares, the pinned
pieces, the check and double-check flags.  `GenerateKingAttackInfo` fills
`attack_lines_`, `pinned_pieces_` and `double_check_`. -/
structure KingAttackInfo where
  double_check_ : Bool := false
  pinned_pieces_ : BitBoard := {}
  attack_lines_ : BitBoard := {}
  deriving DecidableEq, Repr

/-- Modelled from the spec: the analysis reports check exactly when the
attack-resolution set is non-empty (every attacker contributes at least its
own square to `attack_lines_`). -/
def KingAttackInfo.in_check (k : KingAttackInfo) : Bool := !k.attack_lines_.emptyb

/-- Modelled from the spec: double-check flag accessor. -/
def KingAttackInfo.in_double_check (k : KingAttackInfo) : Bool := k.double_check_

/-- Modelled from the spec: pinned-square membership accessor. -/
def KingAttackInfo.is_pinned (k : KingAttackInfo) (sq : Nat) : Bool :=
  k.pinned_pieces_.get sq

/-- Modelled from the spec: attack-resolution-square membership accessor. -/
def KingAttackInfo.is_on_attack_line (k : KingAttackInfo) (sq : Nat) : Bool :=
  k.attack_lines_.get sq

/-- `ChessBoard::IsUnderAttack` (board.cc lines 760-792). -/
def IsUnderAttack (env : OobEnv) (b : ChessBoard) (square : Nat) : Bool :=
  let row : Int := bsRow square
  let col : Int := bsCol square
  let krow : Int := bsRow b.their_king_
  let kcol : Int := bsCol b.their_king_
  if (krow - row).natAbs ≤ 1 ∧ (kcol - col).natAbs ≤ 1 then true
  else if (GetRookAttacks env square (b.our_pieces_.orb b.their_pieces_)).intersects
      (b.their_pieces_.andb b.rooks_) then true
  else if (GetBishopAttacks env square (b.our_pieces_.orb b.their_pieces_)).intersects
      (b.their_pieces_.andb b.bishops_) then true
  else if (kPawnAttacksAt env square).intersects (b.their_pieces_.andb b.pawns_) then true
  else if (kKnightAttacksAt env square).intersects
      ((((b.their_pieces_.subsq b.their_king_).subb b.rooks_).subb b.bishops_).subb
        (b.pawns_.andb kPawnMask)) then true
  else false

/-- The `walk_free` lambda of `GeneratePseudolegalMoves` (board.cc lines
502-508): every square from `lo` to `hi` other than the rook and king squares
must be empty. -/
def walkFree (b : ChessBoard) (lo hi rook king : Nat) : Bool :=
  ((List.range (hi + 1)).drop lo).all
    (fun i => i == rook || i == king ||
      (!b.our_pieces_.get i && !b.their_pieces_.get i))

/-- The `range_attacked` lambda of `GeneratePseudolegalMoves` (board.cc lines
511-519): `to` is not included in the check unless it equals `from`. -/
def rangeAttacked (env : OobEnv) (b : ChessBoard) (a c : Nat) : Bool :=
  if a == c then IsUnderAttack env b a
  else if a < c then (List.range (c - a)).any (fun k => IsUnderAttack env b (a + k))
  else (List.range (a - c)).any (fun k => IsUnderAttack env b (a - k))

/-- The king-move part of `GeneratePseudolegalMoves` (board.cc lines 490-500):
the sixteen `kKingMoves` deltas, ignoring the layer component, with the
destination built by the two-argument `BoardSquare` constructor. -/
def kingAdjacentMoves (env : OobEnv) (b : ChessBoard) (source : Nat) : List Move :=
  kKingMoves.foldl
    (fun res d =>
      let dstRow : Int := (bsRow source : Int) + d.1
      let dstCol : Int := (bsCol source : Int) + d.2.1
      if !bsIsValid dstRow dstCol then res
      else
        let dest := bsq2 dstRow dstCol
        if b.our_pieces_.get dest then res
        else if IsUnderAttack env b dest then res
        else res ++ [mkMove2 source dest])
    []

/-- The castling part of `GeneratePseudolegalMoves` (board.cc lines 501-540). -/
def castlingMoves (env : OobEnv) (b : ChessBoard) (source : Nat) : List Move :=
  let king := bsCol source
  let part1 :=
    if b.castlings_.we_can_000_ then
      let qrook := b.castlings_.queenside_rook_
      if walkFree b (min C1M qrook) (max D1M king) qrook king &&
          !rangeAttacked env b king C1M then
        [mkMove2 source (bsq2 (RANK_1 : Nat) (qrook : Nat))]
      else []
    else []
  let part2 :=
    if b.castlings_.we_can_00_ then
      let krook := b.castlings_.kingside_rook_
      if walkFree b (min F1M king) (max G1M krook) krook king &&
          !rangeAttacked env b king G1M then
        [mkMove2 source (bsq2 (RANK_1 : Nat) (krook : Nat))]
      else []
    else []
  part1 ++ part2

/-- The pawn part of `GeneratePseudolegalMoves` (board.cc lines 566-621):
single push (with the buggy `layer()` in the three-argument destination),
double push, captures, promotions and en-passant. -/
def pawnMoves (b : ChessBoard) (source : Nat) : List Move :=
  let row : Int := bsRow source
  let col : Int := bsCol source
  let dstRow : Int := row + 1
  let dstLayer : Int := bsLayer source
  let dest := bsq3 dstRow col dstLayer
  let push :=
    if !b.our_pieces_.get dest && !b.their_pieces_.get dest then
      if dstRow ≠ (RANK_8 : Nat) then
        [mkMove2 source dest] ++
        (if dstRow = (RANK_3 : Nat) then
          (if !b.our_pieces_.get (bsq3 (RANK_4 : Nat) col dstLayer) &&
              !b.their_pieces_.get (bsq3 (RANK_4 : Nat) col dstLayer) then
            [mkMove2 source (bsq2 (RANK_4 : Nat) col)]
          else [])
        else [])
      else kPromotions.map (fun p => mkMove3 source dest p)
    else []
  let capFor (dirn : Int) : List Move :=
    let dstCol := col + dirn
    if dstCol < 0 ∨ 8 ≤ dstCol then []
    else
      let dest2 := bsq2 dstRow dstCol
      if b.their_pieces_.get dest2 then
        if dstRow = (RANK_8 : Nat) then kPromotions.map (fun p => mkMove3 source dest2 p)
        else [mkMove2 source dest2]
      else if dstRow = (RANK_6 : Nat) ∧ b.pawns_.get (bsq3 (RANK_8 : Nat) dstCol dstLayer) then
        [mkMove2 source dest2]
      else []
  push ++ capFor (-1) ++ capFor 1

/-- `ChessBoard::GeneratePseudolegalMoves` (board.cc lines 484-632): iterate
our pieces; the king gets adjacent moves plus castlings, rook/bishop members
get magic-table moves, masked pawns get pawn moves, everything else is a
knight. -/
def GeneratePseudolegalMoves (env : OobEnv) (b : ChessBoard) : List Move :=
  b.our_pieces_.squares.foldl
    (fun result source =>
      if source == b.our_king_ then
        result ++ kingAdjacentMoves env b source ++ castlingMoves env b source
      else
        let isRook := b.rooks_.get source
        let isBishop := b.bishops_.get source
        let rookPart :=
          if isRook then
            ((GetRookAttacks env source (b.our_pieces_.orb b.their_pieces_)).subb
              b.our_pieces_).squares.map (fun dst => mkMove2 source dst)
          else []
        let bishopPart :=
          if isBishop then
            ((GetBishopAttacks env source (b.our_pieces_.orb b.their_pieces_)).subb
              b.our_pieces_).squares.map (fun dst => mkMove2 source dst)
          else []
        if isRook || isBishop then result ++ rookPart ++ bishopPart
        else if (b.pawns_.andb kPawnMask).get source then
          result ++ pawnMoves b source
        else
          result ++ ((kKnightAttacksAt env source).subb b.our_pieces_).squares.map
            (fun dst => mkMove2 source dst))
    []

/-- The C5 failing position: lone white king on a1 (square 0), black king
recorded at h8 (square 63), no other pieces, no castling rights. -/
def boardC5 : ChessBoard :=
  { our_pieces_ := ⟨1, 0, 0⟩, our_king_ := 0, their_king_ := 63 }

/-- C5 fails on the code: at the failing position the legal adjacent squares
of the king are b1, a2, b2, so the claim expects the three moves a1b1, a1a2,
a1b2, each exactly once.  The code instead emits each move twice (the sixteen
`kKingMoves` deltas list every (row, col) step twice, with the ignored layer
component +1 and -1), and every emitted move is mis-encoded: the destination
`64 + s` produced by the two-argument `BoardSquare` constructor overflows the
6-bit to-field, so e.g. the move towards b1 is stored with from-square b1 and
to-square b1 instead of from a1 to b1.  (Out-of-bounds table reads during the
attack checks are taken as zero bytes, environment `env0`.) -/
theorem C5_king_moves_duplicated :
    GeneratePseudolegalMoves env0 boardC5 =
      [⟨65⟩, ⟨65⟩, ⟨72⟩, ⟨72⟩, ⟨73⟩, ⟨73⟩] ∧
    mkMove2 0 (bsq2 0 1) = ⟨65⟩ ∧
    (Move.mk 65).fromSq = 1 ∧ (Move.mk 65).to = 1 ∧
    List.count (Move.mk 65) (GeneratePseudolegalMoves env0 boardC5) = 2 ∧
    mkMove2 0 1 = ⟨1⟩ ∧
    List.count (Move.mk 1) (GeneratePseudolegalMoves env0 boardC5) = 0 := by
  decide

/-- The `do_castling` lambda of `ApplyMove` (board.cc lines 646-656). -/
def doCastling (b : ChessBoard) (king_dst rook_src rook_dst : Nat) : ChessBoard :=
  { b with
    pawns_ := b.pawns_.andb kPawnMask
    our_pieces_ := (((b.our_pieces_.reset b.our_king_).reset rook_src).set king_dst).set rook_dst
    rooks_ := (b.rooks_.reset rook_src).set rook_dst
    our_king_ := king_dst }

/-- `ChessBoard::ApplyMove` (board.cc lines 634-758), returning the new state
and the reset-fifty-moves flag.  The en-passant-flag test reads
`kPawnAttacks[ep_sq]` with `ep_sq = 64 + ...`, an out-of-bounds read, hence
the environment parameter. -/
def ApplyMove (env : OobEnv) (b : ChessBoard) (move : Move) : ChessBoard × Bool :=
  let fromS := move.fromSq
  let toS := move.to
  let from_row := bsRow fromS
  let from_col := bsCol fromS
  let to_row := bsRow toS
  let to_col := bsCol toS
  -- Castlings: king moves drop both rights; king-takes-own-rook and the
  -- legacy e1g1/e1c1 patterns relocate king and rook and return false.
  let castleStep : ChessBoard ⊕ ChessBoard :=
    if fromS == b.our_king_ then
      let b1 := { b with castlings_ :=
        { b.castlings_ with we_can_00_ := false, we_can_000_ := false } }
      if from_row == RANK_1 && to_row == RANK_1 then
        let our_rooks := b1.rooks.andb b1.our_pieces_
        if our_rooks.get toS then
          if from_col < to_col then .inl (doCastling b1 G1M toS F1M)
          else .inl (doCastling b1 C1M toS D1M)
        else if from_col == FILE_E && to_col == FILE_G then
          .inl (doCastling b1 G1M H1M F1M)
        else if from_col == FILE_E && to_col == FILE_C then
          .inl (doCastling b1 C1M A1M D1M)
        else .inr b1
      else .inr b1
    else .inr b
  match castleStep with
  | .inl bc => (bc, false)
  | .inr b2 =>
    -- Move in our pieces.
    let our := (b2.our_pieces_.reset fromS).set toS
    -- Remove captured piece.
    let reset_50_moves := b2.their_pieces_.get toS
    let their := b2.their_pieces_.reset toS
    let rooks := b2.rooks_.reset toS
    let bishops := b2.bishops_.reset toS
    let pawns := b2.pawns_.reset toS
    let castl :=
      if toS == 56 + b2.castlings_.kingside_rook_ then
        { b2.castlings_ with they_can_00_ := false }
      else b2.castlings_
    let castl :=
      if toS == 56 + b2.castlings_.queenside_rook_ then
        { castl with they_can_000_ := false }
      else castl
    -- En passant capture removal.
    let epHit := from_row == RANK_5 && pawns.get fromS && from_col != to_col &&
      pawns.get (bsq3 (RANK_8 : Nat) (to_col : Nat) kEnPassantLayer)
    let pawns := if epHit then pawns.reset (bsq3 (RANK_5 : Nat) (to_col : Nat) kEnPassantLayer) else pawns
    let their := if epHit then their.reset (bsq3 (RANK_5 : Nat) (to_col : Nat) kEnPassantLayer) else their
    -- Remove en passant flags.
    let pawns := pawns.andb kPawnMask
    -- If pawn was moved, reset 50 move draw counter.
    let reset_50_moves := reset_50_moves || pawns.get fromS
    if fromS == b2.our_king_ then
      -- King, non-castling move.
      let nb := { b2 with
        our_pieces_ := our
        their_pieces_ := their
        rooks_ := rooks
        bishops_ := bishops
        pawns_ := pawns
        castlings_ := castl
        our_king_ := toS }
      (nb, reset_50_moves)
    else if to_row == RANK_8 && pawns.get fromS then
      -- Promotion.
      let rooks := if move.promotion = .Rook ∨ move.promotion = .Queen then rooks.set toS else rooks
      let bishops := if move.promotion = .Bishop ∨ move.promotion = .Queen then bishops.set toS else bishops
      let nb := { b2 with
        our_pieces_ := our
        their_pieces_ := their
        rooks_ := rooks
        bishops_ := bishops
        pawns_ := pawns.reset fromS
        castlings_ := castl }
      (nb, true)
    else
      -- Reset castling rights when a rook leaves its home square.
      let castl :=
        if from_row == RANK_1 && rooks.get fromS then
          let c1 := if from_col == castl.queenside_rook_ then { castl with we_can_000_ := false } else castl
          if from_col == c1.kingside_rook_ then { c1 with we_can_00_ := false } else c1
        else castl
      -- Ordinary move.
      let rooks := ((rooks.set_if toS (rooks.get fromS)).reset fromS)
      let bishops := ((bishops.set_if toS (bishops.get fromS)).reset fromS)
      let pawns := ((pawns.set_if toS (pawns.get fromS)).reset fromS)
      -- Set en passant flag.
      let pawns :=
        if (to_row : Int) - (from_row : Int) == 2 && pawns.get toS then
          if (kPawnAttacksAt env (bsq2 ((to_row : Int) - 1) (to_col : Nat))).intersects
              (their.andb pawns) then
            pawns.set (bsq3 0 (to_col : Nat) kEnPassantLayer)
          else pawns
        else pawns
      let nb := { b2 with
        our_pieces_ := our
        their_pieces_ := their
        rooks_ := rooks
        bishops_ := bishops
        pawns_ := pawns
        castlings_ := castl }
      (nb, reset_50_moves)

/-- Modelled from the spec: `IsUnderCheck` from the missing board.h; §4.4
describes the hypothetical-application check as testing whether the own king
is attacked afterwards. -/
def IsUnderCheck (env : OobEnv) (b : ChessBoard) : Bool :=
  IsUnderAttack env b b.our_king_

/-- Outcome of one direction walk of `GenerateKingAttackInfo`. -/
inductive KaiOut where
  | nothing
  | pinnedAt (sq : Nat)
  | line (bb : BitBoard)
  deriving DecidableEq, Repr

/-- One direction walk of `GenerateKingAttackInfo` (board.cc lines 837-876 for
rooks, 881-921 for bishops; `pieceSet` is `rooks_` resp. `bishops_`).  The
destination is built with the two-argument `BoardSquare` constructor.  The
fuel bounds the walk; the only direction a walk does not leave the board on
is the degenerate (0, 0) row/col component of a layer direction, on which the
C++ loop would not terminate when it meets no piece, so fuel exhaustion
models that divergent case as contributing nothing. -/
def kaiDirWalk (b : ChessBoard) (pieceSet : BitBoard) :
    Nat → Int → Int → Int → Int → BitBoard → Bool → Nat → KaiOut
  | 0, _, _, _, _, _, _, _ => .nothing
  | fuel + 1, r, c, dr, dc, line, ppf, pp =>
    let rr := r + dr
    let cc := c + dc
    if !bsIsValid rr cc then .nothing
    else
      let dest := bsq2 rr cc
      if b.our_pieces_.get dest && ppf then .nothing
      else
        let ppf2 := ppf || b.our_pieces_.get dest
        let pp2 := if b.our_pieces_.get dest then dest else pp
        let line2 := if !ppf2 then line.set dest else line
        if b.their_pieces_.get dest then
          if pieceSet.get dest then
            if ppf2 then .pinnedAt pp2 else .line line2
          else .nothing
        else kaiDirWalk b pieceSet fuel rr cc dr dc line2 ppf2 pp2

/-- `ChessBoard::GenerateKingAttackInfo` (board.cc lines 826-950). -/
def GenerateKingAttackInfo (env : OobEnv) (b : ChessBoard) : KingAttackInfo :=
  let row : Int := bsRow b.our_king_
  let col : Int := bsCol b.our_king_
  let step := fun (pieceSet : BitBoard) (acc : KingAttackInfo × Nat)
      (d : Int × Int × Int) =>
    match kaiDirWalk b pieceSet 8 row col d.1 d.2.1 ⟨0, 0, 0⟩ false 0 with
    | .nothing => acc
    | .pinnedAt sq =>
      ({ acc.1 with pinned_pieces_ := acc.1.pinned_pieces_.set sq }, acc.2)
    | .line bb =>
      ({ acc.1 with attack_lines_ := acc.1.attack_lines_.orb bb }, acc.2 + 1)
  let st0 : KingAttackInfo × Nat := ({}, 0)
  let st1 :=
    if (kRookAttacksAt env b.our_king_).intersects (b.their_pieces_.andb b.rooks_) then
      kRookDirections.foldl (step b.rooks_) st0
    else st0
  let st2 :=
    if (kBishopAttacksAt env b.our_king_).intersects (b.their_pieces_.andb b.bishops_) then
      kBishopDirections.foldl (step b.bishops_) st1
    else st1
  let attacking_pawns :=
    (kPawnAttacksAt env b.our_king_).andb (b.their_pieces_.andb b.pawns_)
  let st3 := ({ st2.1 with attack_lines_ := st2.1.attack_lines_.orb attacking_pawns },
    if attacking_pawns.as_int ≠ 0 then st2.2 + 1 else st2.2)
  let attacking_knights :=
    (kKnightAttacksAt env b.our_king_).andb
      ((((b.their_pieces_.subsq b.their_king_).subb b.rooks_).subb b.bishops_).subb
        (b.pawns_.andb kPawnMask))
  let st4 := ({ st3.1 with attack_lines_ := st3.1.attack_lines_.orb attacking_knights },
    if attacking_knights.as_int ≠ 0 then st3.2 + 1 else st3.2)
  { st4.1 with double_check_ := st4.2 == 2 }

/-- The en-passant test at the top of `IsLegalMove` (board.cc lines 959-962). -/
def epCondition (b : ChessBoard) (m : Move) : Bool :=
  bsRow m.fromSq == 4 && b.pawns_.get m.fromSq &&
  bsCol m.fromSq != bsCol m.to &&
  b.pawns_.get (bsq3 7 (bsCol m.to : Nat) 1)

/-- `ChessBoard::IsLegalMove` (board.cc lines 952-1025). -/
def IsLegalMove (env : OobEnv) (b : ChessBoard) (move : Move)
    (kai : KingAttackInfo) : Bool :=
  let fromS := move.fromSq
  let toS := move.to
  if epCondition b move then
    -- En passant: apply and check that we are not under check.
    !IsUnderCheck env (ApplyMove env b move).1
  else if kai.in_check then
    if fromS == b.our_king_ then
      !IsUnderCheck env (ApplyMove env b move).1
    else if kai.is_pinned fromS then false
    else if kai.in_double_check then false
    else kai.is_on_attack_line toS
  else if fromS == b.our_king_ then
    if bsRow fromS != 0 || bsRow toS != 0 ||
        (((bsCol fromS : Int) - (bsCol toS : Int)).natAbs == 1 &&
          !b.our_pieces_.get toS) then
      true
    else
      !IsUnderCheck env (ApplyMove env b move).1
  else if !kai.is_pinned fromS then true
  else
    let dx_from : Int := (bsCol fromS : Int) - (bsCol b.our_king_ : Int)
    let dy_from : Int := (bsRow fromS : Int) - (bsRow b.our_king_ : Int)
    let dx_to : Int := (bsCol toS : Int) - (bsCol b.our_king_ : Int)
    let dy_to : Int := (bsRow toS : Int) - (bsRow b.our_king_ : Int)
    if dx_from == 0 || dx_to == 0 then dx_from == dx_to
    else dx_from * dy_to == dx_to * dy_from

/-- The net effect of `std::remove_if` followed by `erase` (board.cc lines
1030-1033): the elements not satisfying the removal predicate, kept in their
original relative order. -/
def eraseRemoveIf (p : Move → Bool) (l : List Move) : List Move :=
  l.foldr (fun x acc => if p x then acc else x :: acc) []

/-- `ChessBoard::GenerateLegalMoves` (board.cc lines 1027-1035): one shared
king-safety analysis, then the erase/remove_if pass over the pseudo-legal
moves. -/
def GenerateLegalMoves (env : OobEnv) (b : ChessBoard) : List Move :=
  let kai := GenerateKingAttackInfo env b
  eraseRemoveIf (fun m => !IsLegalMove env b m kai) (GeneratePseudolegalMoves env b)

theorem eraseRemoveIf_filter (q : Move → Bool) (l : List Move) :
    eraseRemoveIf (fun x => !q x) l = l.filter q := by
  induction l with
  | nil => rfl
  | cons x xs ih =>
    show (if !q x then eraseRemoveIf (fun x => !q x) xs
      else x :: eraseRemoveIf (fun x => !q x) xs) = _
    rw [ih, List.filter_cons]
    cases h : q x <;> simp [h]

/-- C3: `GenerateLegalMoves` returns exactly the moves of
`GeneratePseudolegalMoves`, in their original relative order, that satisfy
`IsLegalMove` with the one king-safety analysis computed once for the
position (for every environment of out-of-bounds reads). -/
theorem C3_legal_is_filtered_pseudolegal (env : OobEnv) (b : ChessBoard) :
    GenerateLegalMoves env b =
      (GeneratePseudolegalMoves env b).filter
        (fun m => IsLegalMove env b m (GenerateKingAttackInfo env b)) :=
  eraseRemoveIf_filter
    (fun m => IsLegalMove env b m (GenerateKingAttackInfo env b))
    (GeneratePseudolegalMoves env b)

/-- C4: in a position whose king-safety analysis reports check, a pseudo-legal
move that is not an en-passant capture and does not move the king is: illegal
if its from-square is pinned; illegal under double check; and otherwise legal
exactly when its destination lies on the attack-resolution lines (for every
environment of out-of-bounds reads). -/
theorem C4_check_policy_non_king_moves (env : OobEnv) (b : ChessBoard) (m : Move)
    (hpl : m ∈ GeneratePseudolegalMoves env b)
    (hcheck : (GenerateKingAttackInfo env b).in_check = true)
    (hep : epCondition b m = false)
    (hking : (m.fromSq == b.our_king_) = false) :
    ((GenerateKingAttackInfo env b).is_pinned m.fromSq = true →
      IsLegalMove env b m (GenerateKingAttackInfo env b) = false) ∧
    ((GenerateKingAttackInfo env b).in_double_check = true →
      IsLegalMove env b m (GenerateKingAttackInfo env b) = false) ∧
    ((GenerateKingAttackInfo env b).is_pinned m.fromSq = false →
      (GenerateKingAttackInfo env b).in_double_check = false →
      (IsLegalMove env b m (GenerateKingAttackInfo env b) = true ↔
        (GenerateKingAttackInfo env b).is_on_attack_line m.to = true)) := by
  refine ⟨fun hp => ?_, fun hd => ?_, fun hp hd => ?_⟩
  · simp [IsLegalMove, hep, hcheck, hking, hp]
  · cases hp : (GenerateKingAttackInfo env b).is_pinned m.fromSq <;>
      simp [IsLegalMove, hep, hcheck, hking, hp, hd]
  · simp [IsLegalMove, hep, hcheck, hking, hp, hd]

/-- The C4 witness position: white king a1 and a white piece on c1; the
analysis reports check through a phantom middle-word pawn bit; black king
square recorded as the (impossible) value 200 so that no destination is
king-adjacent. -/
def boardC4 : ChessBoard :=
  { our_pieces_ := ⟨5, 0, 0⟩, their_pieces_ := ⟨0, 0x200, 0⟩,
    pawns_ := ⟨0, 0x200, 0⟩, our_king_ := 0, their_king_ := 200 }

/-- Witness for C4: the pseudo-legal move with data word 72 at `boardC4`
satisfies all hypotheses, and the conclusion holds there. -/
theorem C4_check_policy_non_king_moves_witness :
    (Move.mk 72) ∈ GeneratePseudolegalMoves env0 boardC4 ∧
    (GenerateKingAttackInfo env0 boardC4).in_check = true ∧
    epCondition boardC4 (Move.mk 72) = false ∧
    ((Move.mk 72).fromSq == boardC4.our_king_) = false ∧
    (((GenerateKingAttackInfo env0 boardC4).is_pinned (Move.mk 72).fromSq = true →
      IsLegalMove env0 boardC4 (Move.mk 72) (GenerateKingAttackInfo env0 boardC4) = false) ∧
    ((GenerateKingAttackInfo env0 boardC4).in_double_check = true →
      IsLegalMove env0 boardC4 (Move.mk 72) (GenerateKingAttackInfo env0 boardC4) = false) ∧
    ((GenerateKingAttackInfo env0 boardC4).is_pinned (Move.mk 72).fromSq = false →
      (GenerateKingAttackInfo env0 boardC4).in_double_check = false →
      (IsLegalMove env0 boardC4 (Move.mk 72) (GenerateKingAttackInfo env0 boardC4) = true ↔
        (GenerateKingAttackInfo env0 boardC4).is_on_attack_line (Move.mk 72).to = true))) :=
  ⟨by decide, by decide, by decide, by decide,
    C4_check_policy_non_king_moves env0 boardC4 (Move.mk 72)
      (by decide) (by decide) (by decide) (by decide)⟩

/-- The C6 failing position: white king on e1 with the queenside castling
right held for the rook file a; the square a1 holds a black rook (the right
has not yet been lazily invalidated).  Black king square recorded as 200 so
that no relevant square is king-adjacent. -/
def boardC6 : ChessBoard :=
  { our_pieces_ := ⟨0x10, 0, 0⟩, their_pieces_ := ⟨1, 0, 0⟩, rooks_ := ⟨1, 0, 0⟩,
    our_king_ := 4, their_king_ := 200,
    castlings_ := { we_can_000_ := true } }

/-- C6 fails on the code: at `boardC6` the move generator emits the queenside
castling move; because the castling destination `BoardSquare(RANK_1, a)` is
the middle-layer encoding 64, the packed move (data word 320) decodes as
from-square 5, to-square 0 instead of from the king square 4.  The move
passes the legality filter, and `ApplyMove` does not recognise it as
castling: it captures the piece on a1 and returns true, although the claim
says castling returns false. -/
theorem C6_castling_apply_move_returns_true :
    boardC6.castlings_.we_can_000_ = true ∧
    castlingMoves env0 boardC6 4 =
      [mkMove2 4 (bsq2 (RANK_1 : Nat) boardC6.castlings_.queenside_rook_)] ∧
    mkMove2 4 (bsq2 (RANK_1 : Nat) boardC6.castlings_.queenside_rook_) = ⟨320⟩ ∧
    (Move.mk 320) ∈ GenerateLegalMoves env0 boardC6 ∧
    (ApplyMove env0 boardC6 ⟨320⟩).2 = true ∧
    (ApplyMove env0 boardC6 ⟨320⟩).1.their_pieces_ = ⟨0, 0, 0⟩ := by
  decide

theorem u64shl_one_ge {pos : Nat} (h : 64 ≤ pos) : u64shl 1 pos = 0 := by
  rw [u64shl, Nat.shiftLeft_eq, one_mul]
  exact Nat.mod_eq_zero_of_dvd (pow_dvd_pow 2 h)

/-- `std::isspace` in the default locale. -/
def isSpaceCh (c : Char) : Bool :=
  c == ' ' || c == '\t' || c == '\n' || c == '\r' ||
  c == Char.ofNat 11 || c == Char.ofNat 12

/-- Whitespace-separated token splitting (the successive `fen_str >> field`
extractions of `SetFromFen`, board.cc lines 1049-1065). -/
def splitTokens : List Char → List Char → List String
  | [], acc => if acc.isEmpty then [] else [String.mk acc.reverse]
  | c :: rest, acc =>
    if isSpaceCh c then
      if acc.isEmpty then splitTokens rest []
      else String.mk acc.reverse :: splitTokens rest []
    else splitTokens rest (c :: acc)

/-- The fields of the FEN string in extraction order. -/
def tokenize (s : String) : List String := splitTokens s.toList []

/-- `istringstream >> int`: an optional sign, then a non-empty digit prefix;
values beyond the `int` range set the failbit. -/
def parseIntTok (tok : String) : Option Int :=
  let p : Int × List Char :=
    match tok.toList with
    | '-' :: r => (-1, r)
    | '+' :: r => (1, r)
    | r => (1, r)
  let digits := p.2.takeWhile (fun c => c.isDigit)
  if digits.isEmpty then none
  else
    let v : Nat := digits.foldl (fun a c => a * 10 + (c.toNat - 48)) 0
    if 2147483647 < (v : Int) then none else some (p.1 * v)

/-- `ChessBoard::Clear()` (board.cc lines 60-62): the whole object is
memset to zero, including the castling rook files. -/
def clearedBoard : ChessBoard :=
  { castlings_ := { queenside_rook_ := 0, kingside_rook_ := 0 } }

/-- Row/column control flow for one character of the board-field loop of
`SetFromFen` (board.cc lines 1068-1116): the slash handling, the digit skip,
the column-overflow check, the pawn-rank check and the unknown-symbol check.
Piece placement is split into `boardCharPlace`; `boardStep` combines the two
exactly as the loop body does. -/
def boardCharRC (c : Char) (row col : Int) : Except String (Int × Int) :=
  if c == '/' then
    if row - 1 < 0 then .error "Bad fen string (too many rows)"
    else .ok (row - 1, 0)
  else if c.isDigit then .ok (row, col + ((c.toNat : Int) - 48))
  else if 8 ≤ col then .error "Bad fen string (too many columns)"
  else if c == 'P' || c == 'p' then
    if row % 7 == 7 || row % 7 == 0 then
      .error "Bad fen string (pawn in first/last row)"
    else .ok (row % 7, col + 1)
  else if c == 'K' || c == 'k' || c == 'R' || c == 'r' || c == 'B' || c == 'b' ||
      c == 'Q' || c == 'q' || c == 'N' || c == 'n' then
    .ok (row % 7, col + 1)
  else .error "Bad fen string"

/-- Piece placement for one character of the board-field loop of `SetFromFen`
(board.cc lines 1081-1114): the layer/row adjustment, the our/their placement
and the per-piece-type bit. -/
def boardCharPlace (c : Char) (b : ChessBoard) (row col : Int) : ChessBoard :=
  if c == '/' || c.isDigit then b
  else
    let layer : Int := 2 - row / 3
    let row2 : Int := row % 7
    let sq := bsq3 row2 col layer
    let b := if c.isUpper then { b with our_pieces_ := b.our_pieces_.set sq }
             else { b with their_pieces_ := b.their_pieces_.set sq }
    if c == 'K' then { b with our_king_ := sq }
    else if c == 'k' then { b with their_king_ := sq }
    else if c == 'R' || c == 'r' then { b with rooks_ := b.rooks_.set sq }
    else if c == 'B' || c == 'b' then { b with bishops_ := b.bishops_.set sq }
    else if c == 'Q' || c == 'q' then
      { b with rooks_ := b.rooks_.set sq, bishops_ := b.bishops_.set sq }
    else if c == 'P' || c == 'p' then { b with pawns_ := b.pawns_.set sq }
    else b

/-- One character of the board-field loop of `SetFromFen` (board.cc lines
1068-1116), acting on the running (board, row, col) state. -/
def boardStep (c : Char) (b : ChessBoard) (row col : Int) :
    Except String (ChessBoard × Int × Int) :=
  match boardCharRC c row col with
  | .error e => .error e
  | .ok rc => .ok (boardCharPlace c b row col, rc.1, rc.2)

/-- The board-field loop of `SetFromFen`. -/
def boardLoop : List Char → ChessBoard → Int → Int →
    Except String (ChessBoard × Int × Int)
  | [], b, row, col => .ok (b, row, col)
  | c :: rest, b, row, col =>
    match boardStep c b row col with
    | .error e => .error e
    | .ok (b2, r2, c2) => boardLoop rest b2 r2 c2

/-- The rightmost-rook scan of the shorthand castling parse (board.cc lines
1128-1131): files 7 down to king_col + 1; the scan ends at king_col when no
rook is found. -/
def findRightRook (rooksC : BitBoard) (rk kc : Nat) : Nat :=
  ((((List.range (7 - kc)).map (fun k => 7 - k)).find?
    (fun i => rooksC.get (bsq3 (rk : Nat) (i : Nat) kCastleLayer)))).getD kc

/-- The leftmost-rook scan of the shorthand castling parse (board.cc lines
1141-1144): files 0 up to king_col - 1. -/
def findLeftRook (rooksC : BitBoard) (rk kc : Nat) : Nat :=
  (((List.range kc).find?
    (fun i => rooksC.get (bsq3 (rk : Nat) (i : Nat) kCastleLayer)))).getD kc

/-- One character of the castling-field loop of `SetFromFen` (board.cc lines
1121-1173), acting on (board, left_rook, right_rook). -/
def castlingStep (c : Char) (b : ChessBoard) (left_rook right_rook : Nat) :
    Except String (ChessBoard × Nat × Nat) :=
  let is_black := c.isLower
  let king_col := bsCol (if is_black then b.their_king_ else b.our_king_)
  let c2 := if !is_black then c.toLower else c
  let rooksC := (if is_black then b.their_pieces_ else b.our_pieces_).andb b.rooks
  if c2 == 'k' then
    let rr := findRightRook rooksC (if is_black then (RANK_8 : Nat) else (RANK_1 : Nat)) king_col
    if rr == king_col then .error "Bad fen string (no kingside rook)"
    else if is_black then
      .ok ({ b with castlings_ := { b.castlings_ with they_can_00_ := true } }, left_rook, rr)
    else
      .ok ({ b with castlings_ := { b.castlings_ with we_can_00_ := true } }, left_rook, rr)
  else if c2 == 'q' then
    let lr := findLeftRook rooksC (if is_black then (RANK_8 : Nat) else (RANK_1 : Nat)) king_col
    if lr == king_col then .error "Bad fen string (no queenside rook)"
    else if is_black then
      .ok ({ b with castlings_ := { b.castlings_ with they_can_000_ := true } }, lr, right_rook)
    else
      .ok ({ b with castlings_ := { b.castlings_ with we_can_000_ := true } }, lr, right_rook)
  else if 'a' ≤ c2 && c2 ≤ 'h' then
    let rook_col := c2.toNat - 97
    if rook_col < king_col then
      if is_black then
        .ok ({ b with castlings_ := { b.castlings_ with they_can_000_ := true } }, rook_col, right_rook)
      else
        .ok ({ b with castlings_ := { b.castlings_ with we_can_000_ := true } }, rook_col, right_rook)
    else
      if is_black then
        .ok ({ b with castlings_ := { b.castlings_ with they_can_00_ := true } }, left_rook, rook_col)
      else
        .ok ({ b with castlings_ := { b.castlings_ with we_can_00_ := true } }, left_rook, rook_col)
  else .error "Bad fen string (unexpected casting symbol)"

/-- The castling-field loop of `SetFromFen`. -/
def castlingLoop : List Char → ChessBoard → Nat → Nat →
    Except String (ChessBoard × Nat × Nat)
  | [], b, l, r => .ok (b, l, r)
  | c :: rest, b, l, r =>
    match castlingStep c b l r with
    | .error e => .error e
    | .ok (b2, l2, r2) => castlingLoop rest b2 l2 r2

/-- The stream-extraction phase of `SetFromFen` (board.cc lines 1049-1066):
the six whitespace-separated fields with their defaults, failing (the final
`if (!fen_str) throw`) when the board field is missing or a numeric field
does not parse.  Returns (board, side-to-move, castling, en-passant, rule50,
move number). -/
def fenFields (fen : String) :
    Except String (String × String × String × String × Int × Int) :=
  match (tokenize fen)[0]? with
  | none => .error "Bad fen string"
  | some board =>
    match (match (tokenize fen)[4]? with
           | none => some (0 : Int)
           | some t => parseIntTok t) with
    | none => .error "Bad fen string"
    | some rule50 =>
      match (match (tokenize fen)[5]? with
             | none => some (1 : Int)
             | some t => parseIntTok t) with
      | none => .error "Bad fen string"
      | some total_moves =>
        .ok (board, ((tokenize fen)[1]?).getD "w", ((tokenize fen)[2]?).getD "-",
          ((tokenize fen)[3]?).getD "-", rule50, total_moves)

/-- The castling-field phase of `SetFromFen` (board.cc lines 1118-1175). -/
def applyCastlingField (castlings : String) (b1 : ChessBoard) :
    Except String ChessBoard :=
  if castlings == "-" then .ok b1
  else
    (castlingLoop castlings.toList b1 FILE_A FILE_H).bind fun out =>
      .ok { out.1 with castlings_ := out.1.castlings_.SetRookPositions out.2.1 out.2.2 }

/-- The en-passant phase of `SetFromFen` (board.cc lines 1177-1182): the
square is built by the two-argument string constructor (hence middle-layer,
row 8-15), so the rank check fails for every non-"-" field. -/
def applyEnPassantField (en_passant : String) (b3 : ChessBoard) :
    Except String ChessBoard :=
  if en_passant == "-" then .ok b3
  else
    let epRow : Int := ((en_passant.toList.getD 1 (Char.ofNat 0)).toNat : Int) - 49
    let epCol : Int := ((en_passant.toList.getD 0 (Char.ofNat 0)).toNat : Int) - 97
    let square := bsq2 epRow epCol
    if bsRow square ≠ RANK_3 ∧ bsRow square ≠ RANK_6 then
      .error "Bad fen string (wrong en passant rank)"
    else
      let epsq := bsq3
        (if bsRow square == RANK_3 then (RANK_1 : Nat) else (RANK_8 : Nat))
        (bsCol square : Nat) kEnPassantLayer
      .ok { b3 with pawns_ := b3.pawns_.set epsq }

/-- The side-to-move phase of `SetFromFen` (board.cc lines 1184-1188). -/
def applySideToMove (who : String) (b4 : ChessBoard) : Except String ChessBoard :=
  if who == "b" || who == "B" then .ok b4.Mirror
  else if who == "w" || who == "W" then .ok b4
  else .error "Bad fen string (side to move)"

/-- `ChessBoard::SetFromFen` (board.cc lines 1038-1191), returning the parsed
board together with the two counters, or the parse error.  The phases run in
the source's order: stream extraction, board field (from the cleared board,
row counter 21), castling field, en-passant field, side to move. -/
def SetFromFen (fen : String) : Except String (ChessBoard × Int × Int) :=
  (fenFields fen).bind fun f =>
  (boardLoop f.1.toList clearedBoard 21 0).bind fun bl =>
  (applyCastlingField f.2.2.1 bl.1).bind fun b3 =>
  (applyEnPassantField f.2.2.2.1 b3).bind fun b4 =>
  (applySideToMove f.2.1 b4).bind fun b5 =>
  .ok (b5, f.2.2.2.2.1, f.2.2.2.2.2)

/-- `ChessBoard::kStartposFen` (board.cc lines 48-49). -/
def kStartposFen : String :=
  "8/8/8/8/8/8/8/8/rnbqkbnr/pppppppp/8/8/8/8/PPPPPPPP/RNBQKBNR/8/8/8/8/8/8/8/8 w KQkq - 0 1"

/-- The error message of a failed parse, for decidable statements about the
parse outcome. -/
def errOf : Except String (ChessBoard × Int × Int) → Option String
  | .error e => some e
  | .ok _ => none

/-- C2 fails on the code: parsing the default start position FEN throws
"pawn in first/last row" instead of producing a board.  The row counter
starts at 21 and is clobbered to `row % 7` by every piece character, so when
the white pawn rank is reached the counter reads 0 and the pawn check fires.
`kStartposBoard` can therefore never be constructed, and no legal moves (let
alone 20) can be generated from it. -/
theorem C2_startpos_fen_rejected :
    (SetFromFen kStartposFen).isOk = false ∧
    errOf (SetFromFen kStartposFen) = some "Bad fen string (pawn in first/last row)" := by
  decide

/-- The C7 counterexample input: the first row of the board field declares
nine columns on the eight-column board, purely with a digit skip count. -/
def fenNineCols : String := "9/8/8/8/8/8/8/8 w - - 0 1"

/-- C7 fails on the code as stated: an input whose board field has more
columns than the board (a row "9") parses successfully — the column-overflow
check runs only when a piece symbol is placed, digit skip counts are never
range-checked. -/
theorem C7_column_overflow_accepted :
    (SetFromFen fenNineCols).isOk = true := by
  decide

/-- The board-field characters `SetFromFen` understands. -/
def legalBoardChar (c : Char) : Bool :=
  c == '/' || c.isDigit || c == 'K' || c == 'k' || c == 'R' || c == 'r' ||
  c == 'B' || c == 'b' || c == 'Q' || c == 'q' || c == 'P' || c == 'p' ||
  c == 'N' || c == 'n'

/-- Column bookkeeping of the board-field loop: a digit advances the column by
its value, a piece symbol must land below column 8 and advances by one. -/
def pieceColsOK : List Char → Int → Bool
  | [], _ => true
  | c :: rest, col =>
    if c == '/' then pieceColsOK rest 0
    else if c.isDigit then pieceColsOK rest (col + ((c.toNat : Int) - 48))
    else decide (col < 8) && pieceColsOK rest (col + 1)

theorem boardCharRC_cases {c : Char} {row col : Int} {rc : Int × Int}
    (h : boardCharRC c row col = .ok rc) :
    ((c == '/') = true ∧ rc.1 = row - 1 ∧ 0 ≤ rc.1 ∧ rc.2 = 0) ∨
    ((c == '/') = false ∧ c.isDigit = true ∧ rc.1 = row ∧
      rc.2 = col + ((c.toNat : Int) - 48)) ∨
    ((c == '/') = false ∧ c.isDigit = false ∧ legalBoardChar c = true ∧
      col < 8 ∧ rc.1 = row % 7 ∧ rc.2 = col + 1 ∧
      ((c == 'p' || c == 'P') = true → ¬(rc.1 = 7 ∨ rc.1 = 0))) := by
  unfold boardCharRC at h
  by_cases h1 : (c == '/') = true
  · rw [if_pos h1] at h
    by_cases h2 : row - 1 < 0
    · rw [if_pos h2] at h; cases h
    · rw [if_neg h2] at h; cases h
      exact Or.inl ⟨h1, rfl, by omega, rfl⟩
  · rw [if_neg h1] at h
    replace h1 : (c == '/') = false := by simpa using h1
    by_cases h3 : c.isDigit = true
    · rw [if_pos h3] at h; cases h
      exact Or.inr (Or.inl ⟨h1, h3, rfl, rfl⟩)
    · rw [if_neg h3] at h
      replace h3 : c.isDigit = false := by simpa using h3
      by_cases h4 : (8 : Int) ≤ col
      · rw [if_pos h4] at h; cases h
      · rw [if_neg h4] at h
        by_cases h5 : (c == 'P' || c == 'p') = true
        · rw [if_pos h5] at h
          by_cases h6 : (row % 7 == 7 || row % 7 == 0) = true
          · rw [if_pos h6] at h; cases h
          · rw [if_neg h6] at h; cases h
            refine Or.inr (Or.inr ⟨h1, h3, ?_, by omega, rfl, rfl, ?_⟩)
            · simp only [Bool.or_eq_true, beq_iff_eq] at h5
              rcases h5 with rfl | rfl <;> decide
            · intro _
              simp only [Bool.or_eq_true, beq_iff_eq, not_or] at h6
              simp only [not_or]
              omega
        · rw [if_neg h5] at h
          by_cases h7 : (c == 'K' || c == 'k' || c == 'R' || c == 'r' || c == 'B' ||
              c == 'b' || c == 'Q' || c == 'q' || c == 'N' || c == 'n') = true
          · rw [if_pos h7] at h; cases h
            refine Or.inr (Or.inr ⟨h1, h3, ?_, by omega, rfl, rfl, ?_⟩)
            · simp only [Bool.or_eq_true] at h7
              simp only [legalBoardChar, Bool.or_eq_true]
              tauto
            · intro hp
              simp only [Bool.or_eq_true] at hp h5
              tauto
          · rw [if_neg h7] at h; cases h

theorem boardStep_ok_rc {c : Char} {b : ChessBoard} {row col : Int}
    {out : ChessBoard × Int × Int} (h : boardStep c b row col = .ok out) :
    boardCharRC c row col = .ok (out.2.1, out.2.2) := by
  unfold boardStep at h
  cases hrc : boardCharRC c row col with
  | error e => rw [hrc] at h; cases h
  | ok rc => rw [hrc] at h; cases h; rfl

theorem boardLoop_legal : ∀ (cs : List Char) (b : ChessBoard) (row col : Int)
    (st : ChessBoard × Int × Int), boardLoop cs b row col = .ok st →
    cs.all legalBoardChar = true := by
  intro cs
  induction cs with
  | nil => intro b row col st _; rfl
  | cons c rest ih =>
    intro b row col st h
    unfold boardLoop at h
    cases hs : boardStep c b row col with
    | error e => rw [hs] at h; cases h
    | ok out =>
      obtain ⟨b2, r2, c2⟩ := out
      rw [hs] at h
      have hrc := boardStep_ok_rc hs
      have hcase := boardCharRC_cases hrc
      have hlegal : legalBoardChar c = true := by
        rcases hcase with ⟨h1, -⟩ | ⟨-, h2, -⟩ | ⟨-, -, h3, -⟩
        · simp [legalBoardChar, h1]
        · simp [legalBoardChar, h2]
        · exact h3
      simp only [List.all_cons, hlegal, Bool.true_and]
      exact ih b2 r2 c2 st h

theorem boardLoop_slashes : ∀ (cs : List Char) (b : ChessBoard) (row col : Int)
    (st : ChessBoard × Int × Int), 0 ≤ row → boardLoop cs b row col = .ok st →
    (cs.countP (fun c => c == '/') : Int) ≤ row := by
  intro cs
  induction cs with
  | nil => intro b row col st hrow _; simpa using hrow
  | cons c rest ih =>
    intro b row col st hrow h
    unfold boardLoop at h
    cases hs : boardStep c b row col with
    | error e => rw [hs] at h; cases h
    | ok out =>
      obtain ⟨b2, r2, c2⟩ := out
      rw [hs] at h
      have hcase := boardCharRC_cases (boardStep_ok_rc hs)
      rcases hcase with ⟨h1, hr, hnn, -⟩ | ⟨h1, -, hr, -⟩ | ⟨h1, -, -, -, hr, -⟩
      · simp only at hr hnn
        have := ih b2 r2 c2 st (by omega) h
        rw [List.countP_cons, h1]
        push_cast
        omega
      · simp only at hr
        have := ih b2 r2 c2 st (by omega) h
        rw [List.countP_cons, h1]
        push_cast
        omega
      · have hr2 : (0 : Int) ≤ r2 ∧ r2 ≤ row := by simp only at hr; omega
        have := ih b2 r2 c2 st hr2.1 h
        rw [List.countP_cons, h1]
        push_cast
        omega

theorem boardLoop_firstRowPawn : ∀ (cs : List Char) (b : ChessBoard) (row col : Int)
    (st : ChessBoard × Int × Int), 0 ≤ row → row % 7 = 0 →
    boardLoop cs b row col = .ok st →
    ((cs.takeWhile (fun c => !(c == '/'))).all
      (fun c => !(c == 'p') && !(c == 'P'))) = true := by
  intro cs
  induction cs with
  | nil => intro b row col st _ _ _; rfl
  | cons c rest ih =>
    intro b row col st hrow hmod h
    unfold boardLoop at h
    cases hs : boardStep c b row col with
    | error e => rw [hs] at h; cases h
    | ok out =>
      obtain ⟨b2, r2, c2⟩ := out
      rw [hs] at h
      have hcase := boardCharRC_cases (boardStep_ok_rc hs)
      rcases hcase with ⟨h1, -⟩ | ⟨h1, hdig, hr, -⟩ | ⟨h1, -, -, -, hr, -, hpawn⟩
      · simp [List.takeWhile_cons, h1]
      · have hnp : (c == 'p') = false := by
          cases hc : c == 'p'
          · rfl
          · rw [beq_iff_eq] at hc; subst hc; cases hdig
        have hnP : (c == 'P') = false := by
          cases hc : c == 'P'
          · rfl
          · rw [beq_iff_eq] at hc; subst hc; cases hdig
        have hrest := ih b2 r2 c2 st (by simp only at hr; omega)
          (by simp only at hr; omega) h
        simp [List.takeWhile_cons, h1, hnp, hnP, hrest]
      · simp only at hr hpawn
        have hr0 : r2 = 0 := by omega
        have hnp : (c == 'p') = false := by
          cases hc : c == 'p'
          · rfl
          · exact absurd (Or.inr hr0) (hpawn (by simp [hc]))
        have hnP : (c == 'P') = false := by
          cases hc : c == 'P'
          · rfl
          · exact absurd (Or.inr hr0) (hpawn (by simp [hc]))
        have hrest := ih b2 r2 c2 st (by omega) (by omega) h
        simp [List.takeWhile_cons, h1, hnp, hnP, hrest]

theorem boardLoop_cols : ∀ (cs : List Char) (b : ChessBoard) (row col : Int)
    (st : ChessBoard × Int × Int), boardLoop cs b row col = .ok st →
    pieceColsOK cs col = true := by
  intro cs
  induction cs with
  | nil => intro b row col st _; rfl
  | cons c rest ih =>
    intro b row col st h
    unfold boardLoop at h
    cases hs : boardStep c b row col with
    | error e => rw [hs] at h; cases h
    | ok out =>
      obtain ⟨b2, r2, c2⟩ := out
      rw [hs] at h
      have hcase := boardCharRC_cases (boardStep_ok_rc hs)
      rcases hcase with ⟨h1, -, -, hc2⟩ | ⟨h1, hdig, -, hc2⟩ | ⟨h1, hdig, -, hlt, -, hc2, -⟩
      · simp only at hc2
        subst hc2
        have := ih b2 r2 0 st h
        simp [pieceColsOK, h1, this]
      · simp only at hc2
        subst hc2
        have := ih b2 r2 _ st h
        simp [pieceColsOK, h1, hdig, this]
      · simp only at hc2
        subst hc2
        have := ih b2 r2 _ st h
        simp [pieceColsOK, h1, hdig, hlt, this]


theorem BitBoard.get_mid_false (bb : BitBoard) {p : Nat} (h64 : 64 ≤ p)
    (h128 : p < 128) : bb.get p = false := by
  rw [BitBoard.get, if_neg (by omega), if_pos h128, u64shl_one_ge h64]
  simp

theorem bsq3_castle_bound {r i : Nat} (hr : r ≤ 7) (hi : i ≤ 7) :
    64 ≤ bsq3 (r : Nat) (i : Nat) kCastleLayer ∧
    bsq3 (r : Nat) (i : Nat) kCastleLayer < 128 := by
  unfold bsq3 kCastleLayer
  omega

theorem findRightRook_none (rooksC : BitBoard) {rk : Nat} (hrk : rk ≤ 7)
    (kc : Nat) : findRightRook rooksC rk kc = kc := by
  have hnone : (((List.range (7 - kc)).map (fun k => 7 - k)).find?
      (fun i => rooksC.get (bsq3 (rk : Nat) (i : Nat) kCastleLayer))) = none := by
    rw [List.find?_eq_none]
    intro i hi
    have hi7 : i ≤ 7 := by
      simp only [List.mem_map, List.mem_range] at hi
      omega
    have hb := bsq3_castle_bound hrk hi7
    simp [BitBoard.get_mid_false _ hb.1 hb.2]
  rw [findRightRook, hnone]
  rfl

theorem findLeftRook_none (rooksC : BitBoard) {rk : Nat} (hrk : rk ≤ 7)
    {kc : Nat} (hkc : kc ≤ 8) : findLeftRook rooksC rk kc = kc := by
  have hnone : (((List.range kc).find?
      (fun i => rooksC.get (bsq3 (rk : Nat) (i : Nat) kCastleLayer)))) = none := by
    rw [List.find?_eq_none]
    intro i hi
    have hi7 : i ≤ 7 := by
      simp only [List.mem_range] at hi
      omega
    have hb := bsq3_castle_bound hrk hi7
    simp [BitBoard.get_mid_false _ hb.1 hb.2]
  rw [findLeftRook, hnone]
  rfl

theorem castlingStep_not_shorthand {c : Char} {b : ChessBoard} {l r : Nat}
    {out : ChessBoard × Nat × Nat} (h : castlingStep c b l r = .ok out) :
    (!(c == 'K') && !(c == 'Q') && !(c == 'k') && !(c == 'q')) = true := by
  have hkc : bsCol (if c.isLower then b.their_king_ else b.our_king_) ≤ 8 := by
    unfold bsCol
    omega
  have hrk : (if c.isLower = true then (RANK_8 : Nat) else (RANK_1 : Nat)) ≤ 7 := by
    split <;> decide
  have key : ((if !c.isLower then c.toLower else c) == 'k') = true ∨
      ((if !c.isLower then c.toLower else c) == 'q') = true → False := by
    intro hc2
    simp only [castlingStep] at h
    rcases hc2 with hc2 | hc2
    · rw [if_pos hc2, findRightRook_none _ hrk, if_pos (beq_self_eq_true _)] at h
      cases h
    · have hck : ((if !c.isLower then c.toLower else c) == 'k') = false := by
        rw [beq_iff_eq] at hc2
        rw [hc2]
        decide
      rw [if_neg (show ¬(((if !c.isLower then c.toLower else c) == 'k') = true) from
          fun hcontra => Bool.false_ne_true (hck.symm.trans hcontra)),
        if_pos hc2, findLeftRook_none _ hrk hkc, if_pos (beq_self_eq_true _)] at h
      cases h
  have hK : (c == 'K') = false := by
    cases hc : c == 'K'
    · rfl
    · rw [beq_iff_eq] at hc; subst hc; exact absurd (Or.inl (by decide)) (fun x => key x)
  have hQ : (c == 'Q') = false := by
    cases hc : c == 'Q'
    · rfl
    · rw [beq_iff_eq] at hc; subst hc; exact absurd (Or.inr (by decide)) (fun x => key x)
  have hk : (c == 'k') = false := by
    cases hc : c == 'k'
    · rfl
    · rw [beq_iff_eq] at hc; subst hc; exact absurd (Or.inl (by decide)) (fun x => key x)
  have hq : (c == 'q') = false := by
    cases hc : c == 'q'
    · rfl
    · rw [beq_iff_eq] at hc; subst hc; exact absurd (Or.inr (by decide)) (fun x => key x)
  simp [hK, hQ, hk, hq]

theorem castlingLoop_no_shorthand : ∀ (cs : List Char) (b : ChessBoard)
    (l r : Nat) (out : ChessBoard × Nat × Nat),
    castlingLoop cs b l r = .ok out →
    cs.all (fun c => !(c == 'K') && !(c == 'Q') && !(c == 'k') && !(c == 'q')) = true := by
  intro cs
  induction cs with
  | nil => intro b l r out _; rfl
  | cons c rest ih =>
    intro b l r out h
    unfold castlingLoop at h
    cases hs : castlingStep c b l r with
    | error e => rw [hs] at h; cases h
    | ok o =>
      obtain ⟨b2, l2, r2⟩ := o
      rw [hs] at h
      simp only [List.all_cons, castlingStep_not_shorthand hs, Bool.true_and]
      exact ih b2 l2 r2 out h


theorem except_bind_ok {α β : Type} {x : Except String α} {f : α → Except String β}
    {b : β} (h : x.bind f = .ok b) : ∃ a, x = .ok a ∧ f a = .ok b := by
  cases x with
  | error e => cases h
  | ok a => exact ⟨a, rfl, h⟩

theorem fenFields_ok {fen : String} {f : String × String × String × String × Int × Int}
    (h : fenFields fen = .ok f) :
    (tokenize fen)[0]? = some f.1 ∧ f.2.2.1 = ((tokenize fen)[2]?).getD "-" := by
  unfold fenFields at h
  cases h0 : (tokenize fen)[0]? with
  | none => rw [h0] at h; cases h
  | some board =>
    rw [h0] at h
    cases hr : (match (tokenize fen)[4]? with
        | none => some (0 : Int)
        | some t => parseIntTok t) with
    | none => rw [hr] at h; cases h
    | some rule50 =>
      rw [hr] at h
      cases hm : (match (tokenize fen)[5]? with
          | none => some (1 : Int)
          | some t => parseIntTok t) with
      | none => rw [hm] at h; cases h
      | some total => rw [hm] at h; cases h; exact ⟨rfl, rfl⟩

theorem applyCastlingField_ok {cs : String} {b1 b3 : ChessBoard}
    (h : applyCastlingField cs b1 = .ok b3) :
    cs.toList.all (fun c => !(c == 'K') && !(c == 'Q') && !(c == 'k') && !(c == 'q')) = true := by
  unfold applyCastlingField at h
  by_cases hc : (cs == "-") = true
  · rw [beq_iff_eq] at hc
    subst hc
    decide
  · rw [if_neg hc] at h
    obtain ⟨out, hloop, -⟩ := except_bind_ok h
    exact castlingLoop_no_shorthand _ _ _ _ _ hloop

/-- C7, amended: a successful `SetFromFen` parse implies that the board field
contained only known symbols, at most 22 rows (so any input with more rows
than the 24-row board is rejected), no pawn in its first row (a pawn on the
board's last rank would need a 24th row, which the row budget already
rejects), and no piece symbol placed on a column beyond the eighth; and that
the castling field contained no shorthand symbol (in particular none lacking
a matching rook — the broken middle-layer rook lookup makes every shorthand
symbol throw).  Only column overflow produced by digit skip counts alone is
accepted, as the counterexample shows. -/
theorem C7_amended_rejections (fen : String) (st : ChessBoard × Int × Int)
    (hok : SetFromFen fen = .ok st) :
    (((tokenize fen)[0]?.getD "").toList.all legalBoardChar = true) ∧
    ((((tokenize fen)[0]?.getD "").toList.countP (fun c => c == '/')) ≤ 21) ∧
    ((((tokenize fen)[0]?.getD "").toList.takeWhile (fun c => !(c == '/'))).all
      (fun c => !(c == 'p') && !(c == 'P')) = true) ∧
    (pieceColsOK ((tokenize fen)[0]?.getD "").toList 0 = true) ∧
    (((tokenize fen)[2]?.getD "-").toList.all
      (fun c => !(c == 'K') && !(c == 'Q') && !(c == 'k') && !(c == 'q')) = true) := by
  unfold SetFromFen at hok
  obtain ⟨f, hf, hok⟩ := except_bind_ok hok
  obtain ⟨bl, hbl, hok⟩ := except_bind_ok hok
  obtain ⟨b3, hcas, hok⟩ := except_bind_ok hok
  obtain ⟨h0, hc2tok⟩ := fenFields_ok hf
  have hboard : ((tokenize fen)[0]?.getD "") = f.1 := by rw [h0]; rfl
  rw [hboard]
  refine ⟨boardLoop_legal _ _ _ _ _ hbl, ?_,
    boardLoop_firstRowPawn _ _ _ _ _ (by norm_num) (by norm_num) hbl,
    boardLoop_cols _ _ _ _ _ hbl, ?_⟩
  · have hsl := boardLoop_slashes f.1.toList clearedBoard 21 0 bl (by norm_num) hbl
    exact_mod_cast hsl
  · rw [← hc2tok]
    exact applyCastlingField_ok hcas

/-- The witness input for the amended C7: a plain empty board with all six
fields present parses successfully. -/
def fenOk : String := "8/8/8/8/8/8/8/8 w - - 0 1"

/-- Witness for the amended C7 at `fenOk`. -/
theorem C7_amended_rejections_witness :
    SetFromFen fenOk = .ok (clearedBoard, 0, 1) ∧
    ((((tokenize fenOk)[0]?.getD "").toList.all legalBoardChar = true) ∧
    ((((tokenize fenOk)[0]?.getD "").toList.countP (fun c => c == '/')) ≤ 21) ∧
    ((((tokenize fenOk)[0]?.getD "").toList.takeWhile (fun c => !(c == '/'))).all
      (fun c => !(c == 'p') && !(c == 'P')) = true) ∧
    (pieceColsOK ((tokenize fenOk)[0]?.getD "").toList 0 = true) ∧
    (((tokenize fenOk)[2]?.getD "-").toList.all
      (fun c => !(c == 'K') && !(c == 'Q') && !(c == 'k') && !(c == 'q')) = true)) :=
  ⟨by rfl, C7_amended_rejections fenOk (clearedBoard, 0, 1) (by rfl)⟩

end LcZero
